import Mathlib

/-!
Verification development for the smart-quiz-app spaced-repetition core
(`SpacedRepetition.py`, the selection routines of `QuizLoader.py`, and the
user filter of `ErrorAnalyzer.py`).

Modelling conventions:
* Python floats are modelled as exact rationals (`ℚ`); float literals such as
  `0.08` become the rationals they denote in the source text (`2/25`).
* Timestamps are rationals measured in days since an arbitrary epoch, so
  `datetime.now() + timedelta(days=i)` is `now + i` and the local calendar
  date of a timestamp `t` is `⌊t⌋`.
* Python `int(x)` truncates toward zero (`pyInt`), while `timedelta.days`
  floors toward negative infinity (`timedelta_days`).
* The JSON dictionary `self.question_data` is an association list with
  dictionary semantics: `dictSet` overwrites in place or appends, and
  `List.lookup` reads.
-/

namespace SmartQuiz

/-- Python `int(x)` on a float/rational: truncation toward zero. -/
def pyInt (q : ℚ) : Int := if 0 ≤ q then ⌊q⌋ else -⌊-q⌋

/-- Python `timedelta.days`: the day difference floored toward negative
infinity (timestamps measured in days). -/
def timedelta_days (q : ℚ) : Int := ⌊q⌋

/-- Python slice `l[:n]` for an arbitrary (possibly negative) integer `n`. -/
def pyTake {α : Type} (l : List α) (n : Int) : List α :=
  if 0 ≤ n then l.take n.toNat else l.take (l.length - (-n).toNat)

/-- One per-(user, question) spaced-repetition record
(`SpacedRepetition.py`, `initialize_question`, lines 45-55). -/
structure ReviewRecord where
  ease_factor : ℚ
  repetition : Nat
  interval : Int
  next_review : ℚ
  total_attempts : Nat
  correct_attempts : Nat
  last_response_time : ℚ
  avg_response_time : ℚ
  created_date : ℚ
deriving DecidableEq, Repr

/-- The store key `f"{username}:{question_id}"` (lines 43, 63, 134, 152). -/
def user_key (username question_id : String) : String :=
  username ++ ":" ++ question_id

/-- The in-memory `self.question_data` dictionary. -/
abbrev Store := List (String × ReviewRecord)

/-- Dictionary assignment `d[k] = v`: overwrite the existing binding in
place, otherwise append at the end. -/
def dictSet (s : Store) (k : String) (v : ReviewRecord) : Store :=
  match s with
  | [] => [(k, v)]
  | (k', v') :: rest => if k' = k then (k, v) :: rest else (k', v') :: dictSet rest k v

/-- The fresh record created by `initialize_question` (lines 45-55). -/
def init_record (now : ℚ) : ReviewRecord :=
  { ease_factor := 5/2
    repetition := 0
    interval := 1
    next_review := now
    total_attempts := 0
    correct_attempts := 0
    last_response_time := 0
    avg_response_time := 0
    created_date := now }

/-- Embeds `initialize_question` (lines 41-55): create the record only when the
key is absent. -/
def initialize_question (s : Store) (question_id username : String) (now : ℚ) : Store :=
  let k := user_key username question_id
  if (s.lookup k).isSome then s else dictSet s k (init_record now)

/-- The quality derivation of `update_question_performance` (lines 100-116),
computed from the already-incremented counters. -/
def derive_quality (was_correct : Bool) (response_time : ℚ)
    (correct_attempts total_attempts : Nat) : Int :=
  if was_correct then
    if response_time ≤ 5 then 5
    else if response_time ≤ 10 then 4
    else 3
  else
    let success_rate : ℚ := (correct_attempts : ℚ) / (total_attempts : ℚ)
    if success_rate > 7/10 then 2
    else if success_rate > 3/10 then 1
    else 0

/-- The record-level body of `update_question_performance` (lines 69-124):
counter updates, running mean, SM-2 interval/repetition transition, quality
derivation, ease update with a 1.3 floor, and the next-review timestamp. -/
def update_record (data : ReviewRecord) (was_correct : Bool)
    (response_time : ℚ) (now : ℚ) : ReviewRecord :=
  let total_attempts := data.total_attempts + 1
  let correct_attempts :=
    if was_correct then data.correct_attempts + 1 else data.correct_attempts
  let total_time := data.avg_response_time * ((total_attempts : ℚ) - 1) + response_time
  let avg_response_time := total_time / (total_attempts : ℚ)
  let repetition := if was_correct then data.repetition + 1 else 0
  let interval : Int :=
    if was_correct then
      if data.repetition = 0 then 1
      else if data.repetition = 1 then 6
      else pyInt ((data.interval : ℚ) * data.ease_factor)
    else 1
  let quality := derive_quality was_correct response_time correct_attempts total_attempts
  let new_ease :=
    data.ease_factor + (1/10 - ((5 : ℚ) - (quality : ℚ)) * (2/25 + ((5 : ℚ) - (quality : ℚ)) * (1/50)))
  let ease_factor := max (13/10) new_ease
  { ease_factor := ease_factor
    repetition := repetition
    interval := interval
    next_review := now + (interval : ℚ)
    total_attempts := total_attempts
    correct_attempts := correct_attempts
    last_response_time := response_time
    avg_response_time := avg_response_time
    created_date := data.created_date }

/-- Embeds `update_question_performance` (lines 57-126) on the in-memory store:
initialize the key when absent (so the record read afterwards is either the
stored one or the fresh default), then overwrite it with the updated record.
The function performs no validation of `response_time`. -/
def update_question_performance (s : Store) (question_id username : String)
    (was_correct : Bool) (response_time : ℚ) (now : ℚ) : Store :=
  let k := user_key username question_id
  let data := (s.lookup k).getD (init_record now)
  dictSet s k (update_record data was_correct response_time now)

/-- Embeds `save_data` (lines 28-34): the file write may raise, but the handler
catches every exception, prints a message and returns normally, so the
caller never observes a storage error. The argument is the outcome of the
underlying file write. -/
def save_data (writeResult : Except String Unit) : Except String Unit :=
  match writeResult with
  | Except.ok () => Except.ok ()
  | Except.error _ => Except.ok ()

/-- Embeds `update_question_performance` together with its final `self.save_data()`
call (line 126): the result visible to the caller, given the outcome of the
underlying file write. -/
def update_and_save (s : Store) (question_id username : String)
    (was_correct : Bool) (response_time : ℚ) (now : ℚ)
    (writeResult : Except String Unit) : Except String Store :=
  let s' := update_question_performance s question_id username was_correct response_time now
  match save_data writeResult with
  | Except.ok () => Except.ok s'
  | Except.error e => Except.error e

/-- Embeds `get_questions_due_for_review` (lines 128-145): unknown questions are
always due; known ones are due when `now >= next_review`. -/
def get_questions_due_for_review (s : Store) (username : String)
    (all_question_ids : List String) (now : ℚ) : List String :=
  all_question_ids.filter (fun question_id =>
    match s.lookup (user_key username question_id) with
    | none => true
    | some data => data.next_review ≤ now)

/-- Embeds `get_question_priority` (lines 147-178). Note the fourth term is
`min(days_overdue, 30)` with no clamp at zero. -/
def get_question_priority (s : Store) (question_id username : String) (now : ℚ) : ℚ :=
  match s.lookup (user_key username question_id) with
  | none => 100
  | some data =>
    let days_overdue := timedelta_days (now - data.next_review)
    let overdue_factor : ℚ := ((max 0 days_overdue : Int) : ℚ) * 10
    let success_rate : ℚ := (data.correct_attempts : ℚ) / ((max 1 data.total_attempts : Nat) : ℚ)
    let difficulty_factor : ℚ := (1 - success_rate) * 50
    let ease_factor : ℚ := ((3 : ℚ) - data.ease_factor) * 20
    let time_factor : ℚ := ((min days_overdue 30 : Int) : ℚ)
    overdue_factor + difficulty_factor + ease_factor + time_factor

/-- The priority formula as the specification states it, with the fourth
term clamped below at zero: `min(max(0, days_overdue), 30)`. Written from
the spec text, to be compared with `get_question_priority`. -/
def priority_claim_formula (data : ReviewRecord) (now : ℚ) : ℚ :=
  let days_overdue := timedelta_days (now - data.next_review)
  ((max 0 days_overdue : Int) : ℚ) * 10
    + (1 - (data.correct_attempts : ℚ) / ((max 1 data.total_attempts : Nat) : ℚ)) * 50
    + ((3 : ℚ) - data.ease_factor) * 20
    + ((min (max 0 days_overdue) 30 : Int) : ℚ)

/-- Embeds Python `str.startswith`: a prefix test on the character
sequence of the string. -/
def pyStartswith (s p : String) : Bool := p.data.isPrefixOf s.data

/-- The per-user filter shared by `get_user_statistics`
(`SpacedRepetition.py` lines 182-183) and `get_user_error_summary`
(`ErrorAnalyzer.py` lines 19-22): keep entries whose key starts with
`f"{username}:"`. -/
def user_records (s : Store) (username : String) : Store :=
  s.filter (fun kv => pyStartswith kv.1 (username ++ ":"))

/-- Embeds `key.split(':', 1)[1]`: everything after the first colon
(`SpacedRepetition.py` line 232, `ErrorAnalyzer.py` line 21). -/
def afterFirstColon (k : String) : String :=
  match k.splitOn ":" with
  | [] => k
  | [_] => k
  | _ :: rest => String.intercalate ":" rest

/-- The bucket list of a date key in the schedule dictionary. -/
def bucketOf (sched : List (Int × List String)) (d : Int) : List String :=
  (sched.lookup d).getD []

/-- Embeds `if date_key in schedule: schedule[date_key].append(question_id)`
(`get_review_schedule`, lines 231-233): append to the bucket when the date
key exists, silently drop the entry otherwise. -/
def schedAppend (sched : List (Int × List String)) (d : Int) (x : String) :
    List (Int × List String) :=
  match sched with
  | [] => []
  | (d', l) :: rest =>
    if d' = d then (d', l ++ [x]) :: rest else (d', l) :: schedAppend rest d x

/-- One iteration of the record loop of `get_review_schedule`
(lines 226-233). -/
def schedStep (username : String) (now : ℚ) (days : Nat)
    (sched : List (Int × List String)) (e : String × ReviewRecord) :
    List (Int × List String) :=
  if pyStartswith e.1 (username ++ ":") then
    if now ≤ e.2.next_review ∧ e.2.next_review ≤ now + (days : ℚ) then
      schedAppend sched ⌊e.2.next_review⌋ (afterFirstColon e.1)
    else sched
  else sched

/-- Embeds `get_review_schedule` (lines 215-235): empty buckets for the dates of
`now + i`, `i < days`, then every user record whose `next_review` lies in
`[now, now + days]` is appended to the bucket of its calendar date when
that bucket exists. -/
def get_review_schedule (s : Store) (username : String) (days : Nat) (now : ℚ) :
    List (Int × List String) :=
  let empties := (List.range days).map
    (fun i : Nat => ((⌊now + (i : ℚ)⌋ : Int), ([] : List String)))
  s.foldl (schedStep username now days) empties

/-- A quiz question, reduced to its stable content-derived identifier
(`Question.get_id`). -/
structure Question where
  id : String
deriving DecidableEq, Repr

/-- Embeds `question_map = {q.get_id(): q for q in all_questions}` followed by
`question_map[q_id]`: the last question with the given id, if any. -/
def question_map_get (all_questions : List Question) (i : String) : Option Question :=
  all_questions.foldl (fun acc q => if q.id = i then some q else acc) none

/-- Descending lexicographic comparison on `(priority, question_id)` pairs,
as Python's `list.sort(reverse=True)` orders tuples. -/
def tupleGe (a b : ℚ × String) : Bool :=
  decide (b.1 < a.1 ∨ (a.1 = b.1 ∧ ¬ a.2 < b.2))

/-- Stable insertion of a pair into a descending-sorted list. -/
def insertDesc (x : ℚ × String) : List (ℚ × String) → List (ℚ × String)
  | [] => [x]
  | y :: ys => if tupleGe x y then x :: y :: ys else y :: insertDesc x ys

/-- Stable descending sort of `(priority, question_id)` pairs:
`lst.sort(reverse=True)` (lines 90, 151, 207). -/
def sortDesc : List (ℚ × String) → List (ℚ × String)
  | [] => []
  | x :: xs => insertDesc x (sortDesc xs)

/-- The `random` module as used by `QuizLoader.py`: `random.sample`
(uniform draws without replacement) and `random.shuffle`. -/
structure RandomSource where
  sample : List Question → Nat → List Question
  shuffle : List Question → List Question

/-- A degenerate randomness source used for concrete evaluations: `sample`
takes a front segment and `shuffle` is the identity permutation. -/
def idRng : RandomSource :=
  { sample := fun l n => l.take n, shuffle := fun l => l }

/-- The random-fill step shared by the three selection routines
(lines 101-110, 161-170, 229-234): when fewer than `max_questions` items
are selected and candidates remain, extend with
`random.sample(remaining, min(needed, len(remaining)))`. -/
def randomFill (rng : RandomSource) (selected remaining : List Question)
    (max_questions : Int) : List Question :=
  if (selected.length : Int) < max_questions then
    if remaining ≠ [] then
      selected ++ rng.sample remaining
        (min (max_questions - (selected.length : Int)).toNat remaining.length)
    else selected
  else selected

/-- Embeds `get_spaced_repetition_quiz` (`QuizLoader.py` lines 61-115) with the
candidate pool already loaded: early empty-pool return, cold-start
initialization, due-set computation, priority ranking, Python slice
`[:max_questions]`, random fill, final shuffle. -/
def get_spaced_repetition_quiz (rng : RandomSource) (s : Store) (username : String)
    (all_questions : List Question) (max_questions : Int) (now : ℚ) : List Question :=
  if all_questions = [] then []
  else
    let all_question_ids := all_questions.map Question.id
    let s1 := all_questions.foldl
      (fun st q => initialize_question st q.id username now) s
    let due_questions := get_questions_due_for_review s1 username all_question_ids now
    let due_with_priority := due_questions.map
      (fun q_id => (get_question_priority s1 q_id username now, q_id))
    let ranked := sortDesc due_with_priority
    let selected := (pyTake ranked max_questions).filterMap
      (fun p => question_map_get all_questions p.2)
    let remaining := all_questions.filter (fun q => ¬ q ∈ selected)
    rng.shuffle (randomFill rng selected remaining max_questions)

/-- Embeds `get_difficult_questions_quiz` (`QuizLoader.py` lines 117-173) with the
candidate pool already loaded: rank attempted records by difficulty score,
slice, random fill, shuffle. No cold-start initialization happens here. -/
def get_difficult_questions_quiz (rng : RandomSource) (s : Store) (username : String)
    (all_questions : List Question) (max_questions : Int) : List Question :=
  if all_questions = [] then []
  else
    let difficult := all_questions.filterMap (fun q =>
      match s.lookup (user_key username q.id) with
      | none => none
      | some data =>
        if data.total_attempts > 0 then
          some ((1 - (data.correct_attempts : ℚ) / ((max 1 data.total_attempts : Nat) : ℚ)) * 100
                  + ((3 : ℚ) - data.ease_factor) * 20, q.id)
        else none)
    let ranked := sortDesc difficult
    let selected := (pyTake ranked max_questions).filterMap
      (fun p => question_map_get all_questions p.2)
    let remaining := all_questions.filter (fun q => ¬ q ∈ selected)
    rng.shuffle (randomFill rng selected remaining max_questions)

/-- Deduplication by question id preserving first occurrence
(`get_mixed_review_quiz`, lines 221-226). -/
def dedupById (l : List Question) : List Question :=
  (l.foldl (fun (acc : List Question × List String) q =>
      if q.id ∈ acc.2 then acc else (acc.1 ++ [q], acc.2 ++ [q.id])) ([], [])).1

/-- Embeds `get_mixed_review_quiz` (`QuizLoader.py` lines 175-237) with the
all-topic pool already loaded: a 60% spaced-repetition quota via
`int(max_questions * 0.6)`, a difficulty quota delegated to
`get_difficult_questions_quiz`, deduplication, random fill, then shuffle
and final slice `[:max_questions]`. -/
def get_mixed_review_quiz (rng : RandomSource) (s : Store) (username : String)
    (all_questions : List Question) (max_questions : Int) (now : ℚ) : List Question :=
  if all_questions = [] then []
  else
    let sr_count := pyInt ((max_questions : ℚ) * (6/10))
    let difficult_count := max_questions - sr_count
    let all_question_ids := all_questions.map Question.id
    let due_questions := get_questions_due_for_review s username all_question_ids now
    let due_with_priority := due_questions.map
      (fun q_id => (get_question_priority s q_id username now, q_id))
    let ranked := sortDesc due_with_priority
    let sr_questions := (pyTake ranked sr_count).filterMap
      (fun p => question_map_get all_questions p.2)
    let difficult_questions :=
      get_difficult_questions_quiz rng s username all_questions difficult_count
    let unique_questions := dedupById (sr_questions ++ difficult_questions)
    let remaining := all_questions.filter
      (fun q => ¬ q.id ∈ unique_questions.map Question.id)
    pyTake (rng.shuffle (randomFill rng unique_questions remaining max_questions)) max_questions

/-- One scheduler call: `initialize_question` or
`update_question_performance`, with its own wall-clock time. -/
inductive Op where
  | init (question_id username : String) (now : ℚ)
  | update (question_id username : String) (was_correct : Bool)
      (response_time : ℚ) (now : ℚ)

/-- Apply one scheduler call to the store. -/
def applyOp (s : Store) : Op → Store
  | Op.init q u now => initialize_question s q u now
  | Op.update q u wc rt now => update_question_performance s q u wc rt now

/-- Run a sequence of scheduler calls from the empty store (a fresh
`SpacedRepetitionManager` with no data file). -/
def runOps (ops : List Op) : Store := ops.foldl applyOp []

/-- The two record invariants of the claim set: counter consistency and
the ease-factor floor. -/
def RecordInv (r : ReviewRecord) : Prop :=
  r.correct_attempts ≤ r.total_attempts ∧ (13/10 : ℚ) ≤ r.ease_factor

/-- Every record reachable in the store satisfies `RecordInv`. -/
def StoreInv (s : Store) : Prop :=
  ∀ k r, s.lookup k = some r → RecordInv r

/-- A concrete record for the evaluations below: one successful attempt,
next review two days after the epoch (so not yet due at time 0). -/
def pendingRecord : ReviewRecord :=
  { init_record 0 with next_review := 2, total_attempts := 1, correct_attempts := 1 }

/-- A concrete record with one (failed) attempt, used to exercise the
difficulty-focused selection. -/
def attemptedRecord : ReviewRecord :=
  { init_record 0 with total_attempts := 1 }

/-- A concrete record whose review falls a day and a quarter after the
epoch, inside a one-day window starting at midday. -/
def lateRecord : ReviewRecord :=
  { init_record 0 with next_review := 5/4 }

theorem pyInt_eq_floor {q : ℚ} (h : 0 ≤ q) : pyInt q = ⌊q⌋ := if_pos h

theorem lookup_cons_pair (a : String) (b : ReviewRecord) (tl : Store) (k' : String) :
    List.lookup k' ((a, b) :: tl) = if k' = a then some b else List.lookup k' tl := by
  by_cases h : k' = a
  · subst h
    simp [List.lookup]
  · simp [List.lookup, beq_eq_false_iff_ne.mpr h, h]

theorem lookup_dictSet (s : Store) (k k' : String) (v : ReviewRecord) :
    (dictSet s k v).lookup k' = if k' = k then some v else s.lookup k' := by
  induction s with
  | nil =>
    show List.lookup k' [(k, v)] = _
    rw [lookup_cons_pair]
  | cons hd tl ih =>
    obtain ⟨a, b⟩ := hd
    simp only [dictSet]
    split
    · next hak =>
      subst hak
      rw [lookup_cons_pair, lookup_cons_pair]
      by_cases hk : k' = a <;> simp [hk]
    · next hak =>
      rw [lookup_cons_pair, lookup_cons_pair, ih]
      by_cases hk : k' = a
      · subst hk
        simp [hak]
      · simp [hk]

theorem init_record_inv (now : ℚ) : RecordInv (init_record now) := by
  constructor
  · exact le_refl 0
  · norm_num [init_record]

theorem update_record_inv (d : ReviewRecord) (wc : Bool) (rt now : ℚ)
    (h : d.correct_attempts ≤ d.total_attempts) :
    RecordInv (update_record d wc rt now) := by
  constructor
  · show (if wc then d.correct_attempts + 1 else d.correct_attempts) ≤ d.total_attempts + 1
    cases wc <;> simp <;> omega
  · exact le_max_left _ _

theorem storeInv_applyOp (s : Store) (op : Op) (h : StoreInv s) :
    StoreInv (applyOp s op) := by
  cases op with
  | init q u now =>
    intro k r hk
    simp only [applyOp, initialize_question] at hk
    split at hk
    · exact h k r hk
    · rw [lookup_dictSet] at hk
      split at hk
      · cases hk
        exact init_record_inv now
      · exact h k r hk
  | update q u wc rt now =>
    intro k r hk
    simp only [applyOp, update_question_performance, lookup_dictSet] at hk
    split at hk
    · cases hk
      apply update_record_inv
      cases hl : s.lookup (user_key u q) with
      | none => simp [hl, init_record]
      | some d => simpa [hl] using (h _ d hl).1
    · exact h k r hk

theorem storeInv_foldl (ops : List Op) :
    ∀ s : Store, StoreInv s → StoreInv (ops.foldl applyOp s) := by
  induction ops with
  | nil => intro s h; exact h
  | cons op tl ih => intro s h; exact ih _ (storeInv_applyOp s op h)

/-- C1: on a correct answer the interval becomes 1 for streak 0, 6 for
streak 1, and `floor(interval * ease_factor)` otherwise (using the
pre-update values), after which the streak is incremented; on an incorrect
answer the streak resets to 0 and the interval to 1, whatever the prior
streak was. Stated for records with nonnegative interval and ease factor,
where Python's `int()` truncation agrees with `floor`. -/
theorem update_interval_repetition_transition (data : ReviewRecord) (rt now : ℚ)
    (h1 : 0 ≤ data.interval) (h2 : 0 ≤ data.ease_factor) :
    ((update_record data true rt now).repetition = data.repetition + 1
      ∧ (update_record data true rt now).interval =
          (if data.repetition = 0 then 1
           else if data.repetition = 1 then 6
           else ⌊(data.interval : ℚ) * data.ease_factor⌋))
    ∧ ((update_record data false rt now).repetition = 0
      ∧ (update_record data false rt now).interval = 1) := by
  refine ⟨⟨rfl, ?_⟩, rfl, rfl⟩
  show (if data.repetition = 0 then 1
        else if data.repetition = 1 then 6
        else pyInt ((data.interval : ℚ) * data.ease_factor)) = _
  have hm : (0 : ℚ) ≤ (data.interval : ℚ) * data.ease_factor :=
    mul_nonneg (by exact_mod_cast h1) h2
  rw [pyInt_eq_floor hm]

/-- Witness for C1 at a concrete record with streak 2, interval 6 and
ease factor 5/2. -/
theorem update_interval_repetition_transition_wit :
    ((update_record { init_record 0 with repetition := 2, interval := 6 } true 3 0).repetition
        = 2 + 1
      ∧ (update_record { init_record 0 with repetition := 2, interval := 6 } true 3 0).interval =
          (if (2 : Nat) = 0 then 1
           else if (2 : Nat) = 1 then 6
           else ⌊((6 : Int) : ℚ) * (5/2 : ℚ)⌋))
    ∧ ((update_record { init_record 0 with repetition := 2, interval := 6 } false 3 0).repetition = 0
      ∧ (update_record { init_record 0 with repetition := 2, interval := 6 } false 3 0).interval = 1) :=
  update_interval_repetition_transition
    { init_record 0 with repetition := 2, interval := 6 } 3 0
    (by norm_num [init_record]) (by norm_num [init_record])

/-- C2: after any sequence of `initialize_question` and
`update_question_performance` calls (any correctness flags, any response
times, any timestamps) starting from an empty store, every stored record
has `correct_attempts ≤ total_attempts` and `ease_factor ≥ 1.3`. -/
theorem invariants_hold_after_any_sequence (ops : List Op) (k : String) (r : ReviewRecord)
    (h : (runOps ops).lookup k = some r) :
    r.correct_attempts ≤ r.total_attempts ∧ (13/10 : ℚ) ≤ r.ease_factor := by
  have hinv : StoreInv (runOps ops) := by
    unfold runOps
    refine storeInv_foldl ops [] ?_
    intro k r hk
    simp [List.lookup] at hk
  exact hinv k r h

/-- Witness for C2: one update call on a fresh store. -/
theorem invariants_hold_after_any_sequence_wit :
    (update_record (init_record 0) true 3 0).correct_attempts
        ≤ (update_record (init_record 0) true 3 0).total_attempts
      ∧ (13/10 : ℚ) ≤ (update_record (init_record 0) true 3 0).ease_factor :=
  invariants_hold_after_any_sequence [Op.update "q" "u" true 3 0] "u:q"
    (update_record (init_record 0) true 3 0) (by rfl)

/-- C3 (corrected): with no record the priority is 100; with a record the
code computes `max(0, days_overdue)*10 + (1 - success_rate)*50 +
(3.0 - ease_factor)*20 + min(days_overdue, 30)` — the final term is NOT
clamped below at zero as the claim states, so a not-yet-due record
contributes its negative day count. -/
theorem priority_formula_amended (s : Store) (q u : String) (now : ℚ) :
    (s.lookup (user_key u q) = none → get_question_priority s q u now = 100)
      ∧ ∀ data, s.lookup (user_key u q) = some data →
          get_question_priority s q u now
            = ((max 0 (timedelta_days (now - data.next_review)) : Int) : ℚ) * 10
              + (1 - (data.correct_attempts : ℚ) / ((max 1 data.total_attempts : Nat) : ℚ)) * 50
              + ((3 : ℚ) - data.ease_factor) * 20
              + ((min (timedelta_days (now - data.next_review)) 30 : Int) : ℚ) := by
  constructor
  · intro h
    simp [get_question_priority, h]
  · intro data h
    simp [get_question_priority, h]

/-- Witness for C3: the empty store gives 100, and a store with one record
evaluates to the code's formula. -/
theorem priority_formula_amended_wit :
    get_question_priority [] "q" "u" 0 = 100
      ∧ get_question_priority [("u:q", pendingRecord)] "q" "u" 0
        = ((max 0 (timedelta_days ((0 : ℚ) - pendingRecord.next_review)) : Int) : ℚ) * 10
          + (1 - (pendingRecord.correct_attempts : ℚ)
              / ((max 1 pendingRecord.total_attempts : Nat) : ℚ)) * 50
          + ((3 : ℚ) - pendingRecord.ease_factor) * 20
          + ((min (timedelta_days ((0 : ℚ) - pendingRecord.next_review)) 30 : Int) : ℚ) := by
  constructor
  · exact (priority_formula_amended [] "q" "u" 0).1 rfl
  · exact (priority_formula_amended [("u:q", pendingRecord)] "q" "u" 0).2 _
      (by simp [user_key, lookup_cons_pair])

/-- C3 counterexample: a record two days before its review date. The code
returns 8 (the uncapped term contributes -2) while the claim's formula
with `min(max(0, days_overdue), 30)` returns 10. -/
theorem priority_claim_formula_cex :
    get_question_priority [("u:q", pendingRecord)] "q" "u" 0 = 8
      ∧ priority_claim_formula pendingRecord 0 = 10 := by
  have hf : timedelta_days (-2 : ℚ) = -2 := by
    rw [show ((-2 : ℚ)) = ((-2 : ℤ) : ℚ) by norm_num, timedelta_days, Int.floor_intCast]
  have hmax : max (0 : Int) (-2) = 0 := max_eq_left (by norm_num)
  have hmin : min (-2 : Int) 30 = -2 := min_eq_left (by norm_num)
  have hmin2 : min (0 : Int) 30 = 0 := min_eq_left (by norm_num)
  have hmaxq : max (0 : ℚ) (-2) = 0 := max_eq_left (by norm_num)
  have hminq : min (-2 : ℚ) 30 = -2 := min_eq_left (by norm_num)
  have hminq2 : min (0 : ℚ) 30 = 0 := min_eq_left (by norm_num)
  constructor
  · simp [get_question_priority, lookup_cons_pair, user_key, pendingRecord, init_record]
    norm_num [hf, hmax, hmin, hmaxq, hminq]
  · simp [priority_claim_formula, pendingRecord, init_record]
    norm_num [hf, hmax, hmin2, hmaxq, hminq2]

/-- C4 (corrected): `update_question_performance` performs no validation of
`response_time`; a call with a negative response time completes normally
and updates the record like any other call, storing the negative value in
`last_response_time` and incrementing `total_attempts`. -/
theorem negative_response_time_updates_record (s : Store) (q u : String) (wc : Bool)
    (rt now : ℚ) (h : rt < 0) :
    (update_question_performance s q u wc rt now).lookup (user_key u q)
        = some (update_record ((s.lookup (user_key u q)).getD (init_record now)) wc rt now)
      ∧ (update_record ((s.lookup (user_key u q)).getD (init_record now)) wc rt now).last_response_time
          = rt
      ∧ (update_record ((s.lookup (user_key u q)).getD (init_record now)) wc rt now).total_attempts
          = ((s.lookup (user_key u q)).getD (init_record now)).total_attempts + 1 := by
  refine ⟨?_, rfl, rfl⟩
  simp [update_question_performance, lookup_dictSet]

/-- Witness for C4 at `response_time = -1` on the empty store. -/
theorem negative_response_time_updates_record_wit :
    (update_question_performance [] "q" "u" true (-1) 0).lookup (user_key "u" "q")
        = some (update_record ((([] : Store).lookup (user_key "u" "q")).getD (init_record 0))
            true (-1) 0)
      ∧ (update_record ((([] : Store).lookup (user_key "u" "q")).getD (init_record 0))
            true (-1) 0).last_response_time = -1
      ∧ (update_record ((([] : Store).lookup (user_key "u" "q")).getD (init_record 0))
            true (-1) 0).total_attempts
          = ((([] : Store).lookup (user_key "u" "q")).getD (init_record 0)).total_attempts + 1 :=
  negative_response_time_updates_record [] "q" "u" true (-1) 0 (by norm_num)

/-- C4 counterexample: on a store holding a fresh record, the call with
`response_time = -1` does not fail and mutates the record:
`total_attempts` goes from 0 to 1 and `last_response_time` becomes -1. -/
theorem negative_response_time_not_rejected_cex :
    ((update_question_performance [("u:q", init_record 0)] "q" "u" true (-1) 0).lookup "u:q").map
        ReviewRecord.total_attempts = some 1
      ∧ ((update_question_performance [("u:q", init_record 0)] "q" "u" true (-1) 0).lookup
          "u:q").map ReviewRecord.last_response_time = some (-1)
      ∧ (([("u:q", init_record 0)] : Store).lookup "u:q").map ReviewRecord.total_attempts
          = some 0 :=
  ⟨rfl, rfl, rfl⟩

/-- C5 (corrected): `save_data` catches every persistence exception and
only prints it, so `update_question_performance` always returns normally
with the in-memory mutation applied — a persistence failure is never
reported to the caller as a `StorageError`. -/
theorem persistence_failure_swallowed (s : Store) (q u : String) (wc : Bool)
    (rt now : ℚ) (w : Except String Unit) :
    update_and_save s q u wc rt now w
      = Except.ok (update_question_performance s q u wc rt now) := by
  cases w with
  | ok v => cases v; rfl
  | error e => rfl

/-- C5 counterexample: a failing write (`disk full`) still yields a
successful `Update` whose store reflects the mutation. -/
theorem persistence_failure_swallowed_cex :
    update_and_save [] "q" "u" true 1 0 (Except.error "disk full")
      = Except.ok (update_question_performance [] "q" "u" true 1 0) := rfl

/-- C7: `avg_response_time` after a call is the exact running mean
`(avg * (n - 1) + response_time) / n` with `n` the new `total_attempts`;
in particular three updates with response times 4, 6, 20 on a fresh record
(any correctness flags, any clock values) give exactly 10. -/
theorem running_mean_exact (d : ReviewRecord) (wc : Bool) (rt now : ℚ) (h : 0 ≤ rt)
    (wc1 wc2 wc3 : Bool) (t1 t2 t3 : ℚ) :
    (update_record d wc rt now).avg_response_time
        = (d.avg_response_time * (((d.total_attempts + 1 : Nat) : ℚ) - 1) + rt)
            / ((d.total_attempts + 1 : Nat) : ℚ)
      ∧ (update_record (update_record (update_record (init_record 0) wc1 4 t1) wc2 6 t2)
            wc3 20 t3).avg_response_time = 10 := by
  constructor
  · rfl
  · simp only [update_record, init_record]
    norm_num

/-- Witness for C7 with a correct answer in 4 seconds on a fresh record. -/
theorem running_mean_exact_wit :
    (update_record (init_record 0) true 4 0).avg_response_time
        = ((init_record 0).avg_response_time * ((((init_record 0).total_attempts + 1 : Nat) : ℚ) - 1)
              + 4) / (((init_record 0).total_attempts + 1 : Nat) : ℚ)
      ∧ (update_record (update_record (update_record (init_record 0) true 4 0) true 6 0)
            true 20 0).avg_response_time = 10 :=
  running_mean_exact (init_record 0) true 4 0 (by norm_num) true true true 0 0 0

/-- C9: a correct answer with `5 < response_time ≤ 10` derives quality 4,
whose ease delta `0.1 - (5-4)*(0.08 + (5-4)*0.02)` is exactly zero in
rational arithmetic, so a record with `ease_factor ≥ 1.3` keeps its ease
factor unchanged. -/
theorem quality_four_preserves_ease (d : ReviewRecord) (rt now : ℚ)
    (h1 : (13/10 : ℚ) ≤ d.ease_factor) (h2 : 5 < rt) (h3 : rt ≤ 10) :
    (update_record d true rt now).ease_factor = d.ease_factor := by
  have hq : derive_quality true rt (d.correct_attempts + 1) (d.total_attempts + 1) = 4 := by
    simp [derive_quality, not_le.mpr h2, h3]
  have he : (update_record d true rt now).ease_factor
      = max (13/10)
          (d.ease_factor + (1/10
            - ((5 : ℚ) - ((derive_quality true rt (d.correct_attempts + 1)
                  (d.total_attempts + 1) : Int) : ℚ))
              * (2/25 + ((5 : ℚ) - ((derive_quality true rt (d.correct_attempts + 1)
                  (d.total_attempts + 1) : Int) : ℚ)) * (1/50)))) := rfl
  rw [he, hq]
  norm_num
  exact h1

/-- Witness for C9: a fresh record (ease 5/2) answered correctly in 7
seconds keeps ease 5/2. -/
theorem quality_four_preserves_ease_wit :
    (update_record (init_record 0) true 7 0).ease_factor = (init_record 0).ease_factor :=
  quality_four_preserves_ease (init_record 0) 7 0 (by norm_num [init_record])
    (by norm_num) (by norm_num)

/-- C10: records are keyed by `username ++ ":" ++ question_id`, so the
distinct pairs (user `a:b`, item `c`) and (user `a`, item `b:c`) share the
store key `a:b:c`: an update addressed to the second pair mutates the
record read for the first, and the per-user filter of
`get_user_statistics` / `get_user_error_summary` for user `a` includes the
record keyed under user `a:b`. -/
theorem key_collision_aliasing :
    user_key "a:b" "c" = user_key "a" "b:c"
      ∧ (("a:b", "c") : String × String) ≠ ("a", "b:c")
      ∧ ((update_question_performance [(user_key "a:b" "c", init_record 0)] "b:c" "a"
            true 3 0).lookup (user_key "a:b" "c")).map ReviewRecord.total_attempts = some 1
      ∧ (user_records [(user_key "a:b" "c", init_record 0)] "a").map Prod.fst
          = [user_key "a:b" "c"] :=
  ⟨rfl, by decide, rfl, by decide⟩

theorem pyTake_zero {α : Type} (l : List α) : pyTake l 0 = [] := by
  simp [pyTake]

theorem randomFill_nil_zero (rng : RandomSource) (remaining : List Question) :
    randomFill rng [] remaining 0 = [] := by
  simp [randomFill]

theorem shuffle_nil_of_perm (rng : RandomSource) (hsh : ∀ l, (rng.shuffle l).Perm l) :
    rng.shuffle [] = [] :=
  (hsh []).eq_nil

theorem sr_quiz_empty_pool (rng : RandomSource) (s : Store) (u : String) (m : Int) (now : ℚ) :
    get_spaced_repetition_quiz rng s u [] m now = [] := by
  simp [get_spaced_repetition_quiz]

theorem difficult_quiz_empty_pool (rng : RandomSource) (s : Store) (u : String) (m : Int) :
    get_difficult_questions_quiz rng s u [] m = [] := by
  simp [get_difficult_questions_quiz]

theorem mixed_quiz_empty_pool (rng : RandomSource) (s : Store) (u : String) (m : Int) (now : ℚ) :
    get_mixed_review_quiz rng s u [] m now = [] := by
  simp [get_mixed_review_quiz]

theorem sr_quiz_zero_max (rng : RandomSource) (hsh : ∀ l, (rng.shuffle l).Perm l)
    (s : Store) (u : String) (pool : List Question) (now : ℚ) :
    get_spaced_repetition_quiz rng s u pool 0 now = [] := by
  by_cases hp : pool = []
  · subst hp
    exact sr_quiz_empty_pool rng s u 0 now
  · simp only [get_spaced_repetition_quiz, if_neg hp, pyTake_zero, List.filterMap_nil,
      randomFill_nil_zero]
    exact shuffle_nil_of_perm rng hsh

theorem difficult_quiz_zero_max (rng : RandomSource) (hsh : ∀ l, (rng.shuffle l).Perm l)
    (s : Store) (u : String) (pool : List Question) :
    get_difficult_questions_quiz rng s u pool 0 = [] := by
  by_cases hp : pool = []
  · subst hp
    exact difficult_quiz_empty_pool rng s u 0
  · simp only [get_difficult_questions_quiz, if_neg hp, pyTake_zero, List.filterMap_nil,
      randomFill_nil_zero]
    exact shuffle_nil_of_perm rng hsh

theorem mixed_quiz_zero_max (rng : RandomSource) (s : Store) (u : String)
    (pool : List Question) (now : ℚ) :
    get_mixed_review_quiz rng s u pool 0 now = [] := by
  by_cases hp : pool = []
  · subst hp
    exact mixed_quiz_empty_pool rng s u 0 now
  · simp only [get_mixed_review_quiz, if_neg hp, pyTake_zero]

/-- C6 (corrected): with any permutation-valued shuffle, all three selection
routines return the empty list on an empty candidate pool and on
`maxCount = 0`; the claim's stronger statement for every `maxCount ≤ 0`
fails for negative counts, where the Python slice `[:maxCount]` keeps
elements (see the counterexample). -/
theorem empty_pool_and_zero_max_give_empty (rng : RandomSource)
    (hsh : ∀ l, (rng.shuffle l).Perm l) (s : Store) (u : String)
    (pool : List Question) (m : Int) (now : ℚ) :
    (pool = [] →
        get_spaced_repetition_quiz rng s u pool m now = []
          ∧ get_difficult_questions_quiz rng s u pool m = []
          ∧ get_mixed_review_quiz rng s u pool m now = [])
      ∧ (get_spaced_repetition_quiz rng s u pool 0 now = []
          ∧ get_difficult_questions_quiz rng s u pool 0 = []
          ∧ get_mixed_review_quiz rng s u pool 0 now = []) := by
  constructor
  · intro hp
    subst hp
    exact ⟨sr_quiz_empty_pool rng s u m now, difficult_quiz_empty_pool rng s u m,
      mixed_quiz_empty_pool rng s u m now⟩
  · exact ⟨sr_quiz_zero_max rng hsh s u pool now, difficult_quiz_zero_max rng hsh s u pool,
      mixed_quiz_zero_max rng s u pool now⟩

/-- Witness for C6: the empty pool and a one-question pool with
`maxCount = 0`, under the identity shuffle. -/
theorem empty_pool_and_zero_max_give_empty_wit :
    (get_spaced_repetition_quiz idRng [] "u" [] 5 0 = []
        ∧ get_difficult_questions_quiz idRng [] "u" [] 5 = []
        ∧ get_mixed_review_quiz idRng [] "u" [] 5 0 = [])
      ∧ (get_spaced_repetition_quiz idRng [] "u" [Question.mk "a"] 0 0 = []
          ∧ get_difficult_questions_quiz idRng [] "u" [Question.mk "a"] 0 = []
          ∧ get_mixed_review_quiz idRng [] "u" [Question.mk "a"] 0 0 = []) := by
  have h1 := empty_pool_and_zero_max_give_empty idRng (fun l => List.Perm.refl l)
    [] "u" [] 5 0
  have h2 := empty_pool_and_zero_max_give_empty idRng (fun l => List.Perm.refl l)
    [] "u" [Question.mk "a"] 0 0
  exact ⟨h1.1 rfl, h2.2⟩

/-- C6 counterexample: `maxCount = -1` (which is ≤ 0) over a two-question
pool whose records both have one attempt: the difficulty-focused selection
returns one question, not the empty list, because the Python slice
`ranked[:-1]` keeps the first of the two ranked entries. -/
theorem negative_max_returns_items_cex :
    get_difficult_questions_quiz idRng [("u:a", attemptedRecord), ("u:b", attemptedRecord)]
        "u" [Question.mk "a", Question.mk "b"] (-1) = [Question.mk "b"]
      ∧ (-1 : Int) ≤ 0 := by
  constructor
  · simp [get_difficult_questions_quiz, lookup_cons_pair, user_key, attemptedRecord,
      init_record, sortDesc, insertDesc, tupleGe, pyTake, randomFill, question_map_get,
      idRng]
    have hb : (((['b'] : List Char)) ≤ ['a']) = False := by
      simp
      decide
    norm_num [hb, List.filterMap_cons]
  · norm_num

theorem lookup_cons_int (a : Int) (b : List String) (tl : List (Int × List String)) (k : Int) :
    List.lookup k ((a, b) :: tl) = if k = a then some b else List.lookup k tl := by
  by_cases h : k = a
  · subst h
    simp [List.lookup]
  · simp [List.lookup, beq_eq_false_iff_ne.mpr h, h]

theorem bucketOf_cons (a : Int) (l : List String) (tl : List (Int × List String)) (d : Int) :
    bucketOf ((a, l) :: tl) d = if d = a then l else bucketOf tl d := by
  rw [bucketOf, lookup_cons_int]
  split_ifs
  · rfl
  · rfl

theorem schedAppend_keys (sched : List (Int × List String)) (d : Int) (x : String) :
    (schedAppend sched d x).map Prod.fst = sched.map Prod.fst := by
  induction sched with
  | nil => rfl
  | cons hd tl ih =>
    obtain ⟨a, l⟩ := hd
    simp only [schedAppend]
    split
    · simp
    · simp [ih]

theorem schedStep_keys (u : String) (now : ℚ) (days : Nat)
    (sched : List (Int × List String)) (e : String × ReviewRecord) :
    (schedStep u now days sched e).map Prod.fst = sched.map Prod.fst := by
  unfold schedStep
  split_ifs <;> simp [schedAppend_keys]

theorem foldl_schedStep_keys (u : String) (now : ℚ) (days : Nat) (entries : Store) :
    ∀ sched, ((entries.foldl (schedStep u now days) sched).map Prod.fst) = sched.map Prod.fst := by
  induction entries with
  | nil => intro sched; rfl
  | cons e tl ih => intro sched; rw [List.foldl_cons, ih, schedStep_keys]

theorem bucketOf_schedAppend_of_mem (sched : List (Int × List String)) (d : Int) (x : String)
    (hd : d ∈ sched.map Prod.fst) :
    bucketOf (schedAppend sched d x) d = bucketOf sched d ++ [x] := by
  induction sched with
  | nil => simp at hd
  | cons hd' tl ih =>
    obtain ⟨a, l⟩ := hd'
    simp only [schedAppend]
    split
    · next h =>
      subst h
      rw [bucketOf_cons, bucketOf_cons]
      simp
    · next h =>
      rw [bucketOf_cons, bucketOf_cons]
      have hmem : d ∈ tl.map Prod.fst := by
        simp only [List.map_cons, List.mem_cons] at hd
        rcases hd with h1 | h1
        · exact absurd h1.symm h
        · exact h1
      by_cases hda : d = a
      · exact absurd hda.symm h
      · simp only [if_neg hda]
        exact ih hmem

theorem bucketOf_schedAppend_superset (sched : List (Int × List String)) (d' : Int) (x : String)
    (d : Int) (y : String) (hy : y ∈ bucketOf sched d) :
    y ∈ bucketOf (schedAppend sched d' x) d := by
  induction sched with
  | nil => simp [bucketOf, List.lookup] at hy
  | cons hd' tl ih =>
    obtain ⟨a, l⟩ := hd'
    simp only [schedAppend]
    split
    · rw [bucketOf_cons] at hy
      rw [bucketOf_cons]
      by_cases hda : d = a
      · simp only [if_pos hda] at hy ⊢
        exact List.mem_append_left _ hy
      · simp only [if_neg hda] at hy ⊢
        exact hy
    · rw [bucketOf_cons] at hy
      rw [bucketOf_cons]
      by_cases hda : d = a
      · simpa [hda] using hy
      · simp only [if_neg hda] at hy ⊢
        exact ih hy

theorem schedStep_superset (u : String) (now : ℚ) (days : Nat)
    (sched : List (Int × List String)) (e : String × ReviewRecord) (d : Int) (y : String)
    (hy : y ∈ bucketOf sched d) : y ∈ bucketOf (schedStep u now days sched e) d := by
  unfold schedStep
  split_ifs
  · exact bucketOf_schedAppend_superset _ _ _ _ _ hy
  · exact hy
  · exact hy

theorem foldl_schedStep_superset (u : String) (now : ℚ) (days : Nat) (entries : Store) :
    ∀ sched d y, y ∈ bucketOf sched d →
      y ∈ bucketOf (entries.foldl (schedStep u now days) sched) d := by
  induction entries with
  | nil => intro sched d y hy; exact hy
  | cons e tl ih =>
    intro sched d y hy
    rw [List.foldl_cons]
    exact ih _ d y (schedStep_superset u now days sched e d y hy)

theorem foldl_schedStep_mem (u : String) (now : ℚ) (days : Nat) (entries : Store) :
    ∀ sched (k : String) (r : ReviewRecord), (k, r) ∈ entries →
      pyStartswith k (u ++ ":") = true →
      now ≤ r.next_review → r.next_review ≤ now + (days : ℚ) →
      ⌊r.next_review⌋ ∈ sched.map Prod.fst →
      afterFirstColon k ∈ bucketOf (entries.foldl (schedStep u now days) sched) ⌊r.next_review⌋ := by
  induction entries with
  | nil =>
    intro sched k r hmem
    simp at hmem
  | cons e tl ih =>
    intro sched k r hmem hsw h1 h2 hd
    rw [List.foldl_cons]
    rcases List.mem_cons.mp hmem with heq | htl
    · cases heq.symm
      apply foldl_schedStep_superset
      unfold schedStep
      simp only [hsw, if_true]
      rw [if_pos ⟨h1, h2⟩]
      rw [bucketOf_schedAppend_of_mem _ _ _ hd]
      exact List.mem_append_right _ (by simp)
    · apply ih _ k r htl hsw h1 h2
      rw [schedStep_keys]
      exact hd

theorem lookup_eq_none_of_not_mem (sched : List (Int × List String)) (d : Int)
    (hd : d ∉ sched.map Prod.fst) : sched.lookup d = none := by
  induction sched with
  | nil => rfl
  | cons hd' tl ih =>
    obtain ⟨a, l⟩ := hd'
    rw [lookup_cons_int]
    simp only [List.map_cons, List.mem_cons] at hd
    push_neg at hd
    rw [if_neg hd.1]
    exact ih hd.2

/-- C8 (corrected): `get_review_schedule` creates buckets only for the
calendar dates of `now + i` for `i < horizon_days` — the date of
`now + horizon_days` gets no bucket even though the record filter accepts
`next_review` up to that instant — and a user record whose `next_review`
lies in `[now, now + horizon_days]` is placed in the bucket of its
calendar date only when that date is among the created buckets; any other
date — in particular the window's final calendar date when it differs
from the covered ones — has no bucket at all in the output, so such a
record is silently dropped (see the counterexample). -/
theorem review_schedule_buckets (s : Store) (u : String) (days : Nat) (now : ℚ)
    (hdays : 0 < days) :
    ((get_review_schedule s u days now).map Prod.fst
        = (List.range days).map (fun i : Nat => (⌊now + (i : ℚ)⌋ : Int)))
      ∧ (∀ k r, (k, r) ∈ s → pyStartswith k (u ++ ":") = true →
          now ≤ r.next_review → r.next_review ≤ now + (days : ℚ) →
          (⌊r.next_review⌋ : Int) ∈ (List.range days).map (fun i : Nat => (⌊now + (i : ℚ)⌋ : Int)) →
          afterFirstColon k ∈ bucketOf (get_review_schedule s u days now) ⌊r.next_review⌋)
      ∧ ∀ d : Int, d ∉ (List.range days).map (fun i : Nat => (⌊now + (i : ℚ)⌋ : Int)) →
          (get_review_schedule s u days now).lookup d = none := by
  have ha : (get_review_schedule s u days now).map Prod.fst
      = (List.range days).map (fun i : Nat => (⌊now + (i : ℚ)⌋ : Int)) := by
    unfold get_review_schedule
    rw [foldl_schedStep_keys]
    simp [List.map_map, Function.comp]
  refine ⟨ha, ?_, ?_⟩
  · intro k r hmem hsw h1 h2 hd
    unfold get_review_schedule
    apply foldl_schedStep_mem u now days s _ k r hmem hsw h1 h2
    simpa [List.map_map, Function.comp] using hd
  · intro d hdmem
    apply lookup_eq_none_of_not_mem
    rw [ha]
    exact hdmem

/-- Witness for C8: one due record at the epoch with a one-day horizon;
day 0 is bucketed and holds the record, day 1 has no bucket. -/
theorem review_schedule_buckets_wit :
    ((get_review_schedule [("u:q", init_record 0)] "u" 1 0).map Prod.fst
        = (List.range 1).map (fun i : Nat => (⌊(0 : ℚ) + (i : ℚ)⌋ : Int)))
      ∧ afterFirstColon "u:q" ∈ bucketOf (get_review_schedule [("u:q", init_record 0)] "u" 1 0)
          ⌊(init_record 0).next_review⌋
      ∧ (get_review_schedule [("u:q", init_record 0)] "u" 1 0).lookup 1 = none := by
  have h := review_schedule_buckets [("u:q", init_record 0)] "u" 1 0 (by norm_num)
  refine ⟨h.1, h.2.1 "u:q" (init_record 0) (by simp) (by decide)
    (by norm_num [init_record]) (by norm_num [init_record]) ?_, h.2.2 1 ?_⟩
  · simp [init_record, List.range_succ]
  · simp [List.range_succ]

/-- C8 counterexample: with `now` at midday (`1/2`) and a one-day horizon,
the record with `next_review = 5/4` lies inside the window
`[now, now + 1]` but its calendar date (day 1) has no bucket, so the
returned schedule is just the single empty bucket for day 0 and the
record appears nowhere. -/
theorem review_schedule_drops_tail_cex :
    get_review_schedule [("u:q", lateRecord)] "u" 1 (1/2) = [(0, [])]
      ∧ (1/2 : ℚ) ≤ lateRecord.next_review
      ∧ lateRecord.next_review ≤ 1/2 + ((1 : Nat) : ℚ) := by
  have hf0 : (⌊(1/2 : ℚ) + ((0 : Nat) : ℚ)⌋ : Int) = 0 := by
    norm_num [Int.floor_eq_iff]
  have hf1 : (⌊lateRecord.next_review⌋ : Int) = 1 := by
    norm_num [lateRecord, init_record, Int.floor_eq_iff]
  have hsw : pyStartswith "u:q" ("u" ++ ":") = true := by decide
  refine ⟨?_, by norm_num [lateRecord, init_record], by norm_num [lateRecord, init_record]⟩
  unfold get_review_schedule
  rw [show List.range 1 = [0] from rfl]
  simp only [List.map_cons, List.map_nil, List.foldl_cons, List.foldl_nil]
  rw [hf0]
  unfold schedStep
  simp only [hsw, if_true]
  rw [if_pos ⟨by norm_num [lateRecord, init_record], by norm_num [lateRecord, init_record]⟩]
  rw [hf1]
  simp [schedAppend]

end SmartQuiz
